import Mathlib

/-!
Verification of the room/message persistence and polling-consistency model of
the Real-Time-Chat-Application repository (server storage layer in
`server/storage.ts`, table definitions in `shared/schema.ts`, HTTP handlers in
`server/routes.ts`).

The relational store is embedded shallowly: each table is a list of rows in
insertion order, and the serial id sequences are explicit counters.  Timestamp
columns (`timestamp ... defaultNow()`) are modelled as `Nat`; every row created
through this storage layer receives the insertion-time value, so in states
reachable through the layer the column is never NULL.  The nullable profile
columns of `users` are modelled with `Option`, since `getRooms` substitutes an
all-NULL placeholder user.
-/

/-- Row of the `users` table (schema.ts).  `id` is the varchar primary key. -/
structure User where
  id : String
  email : Option String
  firstName : Option String
  lastName : Option String
  profileImageUrl : Option String
  createdAt : Option Nat
  updatedAt : Option Nat
deriving Repr, DecidableEq

/-- Row of the `rooms` table (schema.ts).  `id` is a serial primary key. -/
structure Room where
  id : Int
  name : String
  description : Option String
  createdBy : String
  createdAt : Nat
  updatedAt : Nat
deriving Repr, DecidableEq

/-- Row of the `messages` table (schema.ts). -/
structure Message where
  id : Int
  content : String
  userId : String
  roomId : Int
  createdAt : Nat
deriving Repr, DecidableEq

/-- Row of the `room_members` table (schema.ts).  Note: the table declares only
the serial primary key `id`; there is NO unique constraint on
(`user_id`, `room_id`). -/
structure RoomMember where
  id : Int
  userId : String
  roomId : Int
  joinedAt : Nat
deriving Repr, DecidableEq

/-- `InsertRoom` type from schema.ts (`rooms` minus id and timestamps). -/
structure InsertRoom where
  name : String
  description : Option String
  createdBy : String
deriving Repr, DecidableEq

/-- `InsertMessage` type from schema.ts (`messages` minus id and createdAt). -/
structure InsertMessage where
  content : String
  userId : String
  roomId : Int
deriving Repr, DecidableEq

/-- `MessageWithUser` from schema.ts: a message row spread together with the
joined author row (`{...m.message, user: m.user}` in storage.ts). -/
structure MessageWithUser where
  id : Int
  content : String
  userId : String
  roomId : Int
  createdAt : Nat
  user : User
deriving Repr, DecidableEq

/-- `RoomWithDetails` from schema.ts as produced by `getRooms`: a room row
with the joined creator and the aggregated member count. -/
structure RoomWithDetails where
  id : Int
  name : String
  description : Option String
  createdBy : String
  createdAt : Nat
  updatedAt : Nat
  creator : User
  memberCount : Nat
deriving Repr, DecidableEq

/-- The relational store: one list of rows per table, in insertion order,
plus the next value of each serial id sequence. -/
structure DB where
  users : List User
  rooms : List Room
  messages : List Message
  roomMembers : List RoomMember
  nextRoomId : Int
  nextMessageId : Int
  nextMemberId : Int
deriving Repr, DecidableEq

/-- The message row carried by a `MessageWithUser` (undoing the spread). -/
def MessageWithUser.toMessage (e : MessageWithUser) : Message :=
  ⟨e.id, e.content, e.userId, e.roomId, e.createdAt⟩

/-- `{...m.message, user: m.user}` from storage.ts. -/
def mkMWU (m : Message) (u : User) : MessageWithUser :=
  ⟨m.id, m.content, m.userId, m.roomId, m.createdAt, u⟩

/-! ### ORDER BY `created_at` DESC

`getMessages` and `getLatestMessages` order rows with
`orderBy(desc(messages.createdAt))` and no secondary sort key.  The sort is
modelled as a stable insertion sort on the table (insertion) order: rows with
equal `created_at` keep their relative table order within the descending
list. -/

/-- Insert `x` into a descending-by-`key` list, before the first strictly
smaller element (stable: `x` goes after elements with an equal key only when
they are already closer to the front). -/
def insD (key : α → Nat) (x : α) : List α → List α
  | [] => [x]
  | y :: ys => if key y ≤ key x then x :: y :: ys else y :: insD key x ys

/-- Stable insertion sort, descending by `key`. -/
def sortD (key : α → Nat) : List α → List α
  | [] => []
  | x :: xs => insD key x (sortD key xs)

/-! ### Storage access layer (`DatabaseStorage` in storage.ts) -/

/-- `.innerJoin(users, eq(messages.userId, users.id))` applied to the
`messages` table: each message row paired with the matching user row, rows
without a matching user dropped.  `users.id` is the primary key, so at most
one user matches; `find?` returns that unique row in well-formed states. -/
def joinUsers (db : DB) : List (Message × User) :=
  db.messages.filterMap (fun m =>
    (db.users.find? (fun u => u.id == m.userId)).map (fun u => (m, u)))

/-- `DatabaseStorage.getMessages(roomId, limit = 50, offset = 0)`:
join with users, `WHERE room_id = roomId`, `ORDER BY created_at DESC`,
`LIMIT limit OFFSET offset`, then `.reverse()` for oldest-first display.
SQL applies OFFSET before LIMIT.  (A negative `limit`/`offset` raises a
database error in Postgres; the claims only exercise nonnegative values,
which the `Nat` parameters model.) -/
def getMessages (db : DB) (roomId : Int) (limit offset : Nat) : List MessageWithUser :=
  ((((sortD (fun p => p.1.createdAt)
        ((joinUsers db).filter (fun p => p.1.roomId == roomId))).drop offset).take limit).map
      (fun p => mkMWU p.1 p.2)).reverse

/-- `DatabaseStorage.createMessage(message)`: insert one row with the next
serial id and the server-assigned creation time; return the inserted row. -/
def createMessage (db : DB) (im : InsertMessage) (now : Nat) : Message × DB :=
  (⟨db.nextMessageId, im.content, im.userId, im.roomId, now⟩,
   { db with
      messages := db.messages ++ [⟨db.nextMessageId, im.content, im.userId, im.roomId, now⟩],
      nextMessageId := db.nextMessageId + 1 })

/-- `DatabaseStorage.getLatestMessages(roomId, since?)`: same join as
`getMessages`; when `since` is present the `WHERE` clause additionally
requires `created_at > since`; `ORDER BY created_at DESC`, `LIMIT 50`
(no offset), then `.reverse()`. -/
def getLatestMessages (db : DB) (roomId : Int) (since : Option Nat) : List MessageWithUser :=
  match since with
  | none =>
    (((sortD (fun p => p.1.createdAt)
        ((joinUsers db).filter (fun p => p.1.roomId == roomId))).take 50).map
      (fun p => mkMWU p.1 p.2)).reverse
  | some t =>
    (((sortD (fun p => p.1.createdAt)
        ((joinUsers db).filter
          (fun p => p.1.roomId == roomId && decide (t < p.1.createdAt)))).take 50).map
      (fun p => mkMWU p.1 p.2)).reverse

/-- `DatabaseStorage.joinRoom(userId, roomId)`: `INSERT ... ON CONFLICT DO
NOTHING`.  The `room_members` table has no unique constraint on
(`user_id`, `room_id`) — its only uniqueness is the serial primary key, which
is always fresh — so the conflict clause never fires and the insert always
appends a new row. -/
def joinRoom (db : DB) (userId : String) (roomId : Int) (now : Nat) : DB :=
  { db with
      roomMembers := db.roomMembers ++ [⟨db.nextMemberId, userId, roomId, now⟩],
      nextMemberId := db.nextMemberId + 1 }

/-- `DatabaseStorage.leaveRoom(userId, roomId)`: delete the membership rows
for the pair. -/
def leaveRoom (db : DB) (userId : String) (roomId : Int) : DB :=
  { db with
      roomMembers := db.roomMembers.filter
        (fun m => !(m.userId == userId && m.roomId == roomId)) }

/-- `DatabaseStorage.createRoom(room)`: insert the room row, then call
`joinRoom` for the creator.  The two inserts are issued sequentially with no
surrounding transaction. -/
def createRoom (db : DB) (ir : InsertRoom) (now : Nat) : Room × DB :=
  (⟨db.nextRoomId, ir.name, ir.description, ir.createdBy, now, now⟩,
   joinRoom
     { db with
        rooms := db.rooms ++ [⟨db.nextRoomId, ir.name, ir.description, ir.createdBy, now, now⟩],
        nextRoomId := db.nextRoomId + 1 }
     ir.createdBy db.nextRoomId now)

/-- `DatabaseStorage.createRoom` with the runtime possibility that either
database insert rejects (the code awaits the two inserts sequentially and has
no transaction, so a failure of the membership insert leaves the already
committed room row in place).  On failure the error carries the state at the
point of failure. -/
def createRoomF (db : DB) (ir : InsertRoom) (now : Nat)
    (roomInsertOk memberInsertOk : Bool) : Except DB (Room × DB) :=
  if roomInsertOk then
    let newRoom : Room := ⟨db.nextRoomId, ir.name, ir.description, ir.createdBy, now, now⟩
    let db1 : DB :=
      { db with rooms := db.rooms ++ [newRoom], nextRoomId := db.nextRoomId + 1 }
    if memberInsertOk then Except.ok (newRoom, joinRoom db1 ir.createdBy newRoom.id now)
    else Except.error db1
  else Except.error db

/-- True when the fallible operation failed. -/
def isErr : Except DB (Room × DB) → Bool
  | Except.error _ => true
  | Except.ok _ => false

/-- The database state after a fallible `createRoomF` run (the state carried
by the error on failure, the final state on success). -/
def runState : Except DB (Room × DB) → DB
  | Except.error st => st
  | Except.ok p => p.2

/-- `DatabaseStorage.getRoomById(id)`. -/
def getRoomById (db : DB) (id : Int) : Option Room :=
  db.rooms.find? (fun r => r.id == id)

/-- The empty-profile placeholder substituted by `getRooms` when a room's
creator row is missing (`room.creator || {...}` in storage.ts). -/
def placeholderUser : User :=
  ⟨"", none, none, none, none, none, none⟩

/-- `DatabaseStorage.getRooms()`: every room left-joined with its creator
(`users.id` primary key, so at most one match) and left-joined with
`room_members` grouped by room, `count(room_members.id)` counting the
membership rows of the room; a missing creator is replaced by the
empty-profile placeholder. -/
def getRooms (db : DB) : List RoomWithDetails :=
  db.rooms.map (fun r =>
    ⟨r.id, r.name, r.description, r.createdBy, r.createdAt, r.updatedAt,
     (db.users.find? (fun u => u.id == r.createdBy)).getD placeholderUser,
     ((db.roomMembers.filter (fun m => m.roomId == r.id)).length)⟩)

/-- `DatabaseStorage.getRoomMembers(roomId)`: membership rows of the room
inner-joined to the users table. -/
def getRoomMembers (db : DB) (roomId : Int) : List User :=
  (db.roomMembers.filter (fun m => m.roomId == roomId)).filterMap
    (fun m => db.users.find? (fun u => u.id == m.userId))

/-! ### Route layer (`registerRoutes` in routes.ts)

Handlers parse the `roomId` path parameter with JavaScript `parseInt` and the
`limit`/`offset` query parameters with `parseInt(...) || default`.  Each
handler is a pure function from the request data and the current store to a
response, the next store, and the list of storage operations it performed. -/

/-- JavaScript decimal digit test. -/
def isDecDigit (c : Char) : Bool := '0' ≤ c && c ≤ '9'

/-- JavaScript hexadecimal digit test. -/
def isHexDigit (c : Char) : Bool :=
  isDecDigit c || ('a' ≤ c && c ≤ 'f') || ('A' ≤ c && c ≤ 'F')

/-- Numeric value of a hexadecimal digit. -/
def hexVal (c : Char) : Nat :=
  if isDecDigit c then c.toNat - 48
  else if 'a' ≤ c && c ≤ 'f' then c.toNat - 87
  else c.toNat - 55

/-- Longest digit run at the front of the input, interpreted in `base`;
`none` when there is no digit (JS `parseInt` yields `NaN` there). -/
def parseDigitsWith (isDig : Char → Bool) (val : Char → Nat) (base : Nat)
    (cs : List Char) : Option Nat :=
  match cs.takeWhile isDig with
  | [] => none
  | ds => some (ds.foldl (fun a c => a * base + val c) 0)

/-- Magnitude part of JS `parseInt` with an undefined radix: a `0x`/`0X`
prefix switches to hexadecimal, otherwise the longest decimal prefix is
taken. -/
def jsParseIntMag (cs : List Char) : Option Nat :=
  match cs with
  | '0' :: x :: rest =>
    if x = 'x' || x = 'X' then parseDigitsWith isHexDigit hexVal 16 rest
    else parseDigitsWith isDecDigit (fun c => c.toNat - 48) 10 cs
  | _ => parseDigitsWith isDecDigit (fun c => c.toNat - 48) 10 cs

/-- JavaScript `parseInt(s)` (radix undefined): skip leading whitespace, read
an optional sign, then the longest digit prefix; `none` models `NaN`. -/
def jsParseInt (s : String) : Option Int :=
  match s.data.dropWhile Char.isWhitespace with
  | '-' :: rest => (jsParseIntMag rest).map (fun n => -(n : Int))
  | '+' :: rest => (jsParseIntMag rest).map (fun n => (n : Int))
  | cs => (jsParseIntMag cs).map (fun n => (n : Int))

/-- `parseInt(req.query.x as string)` where the query parameter may be
absent: `parseInt(undefined)` is `NaN`. -/
def jsParseIntOpt : Option String → Option Int
  | none => none
  | some s => jsParseInt s

/-- JavaScript `x || d` on the result of `parseInt`: `NaN` and `0` are falsy
and give the default. -/
def jsOr (x : Option Int) (d : Int) : Int :=
  match x with
  | none => d
  | some n => if n = 0 then d else n

/-- `parseInt(req.query.limit as string) || 50` from the message-listing
handler. -/
def effLimit (q : Option String) : Int := jsOr (jsParseIntOpt q) 50

/-- `parseInt(req.query.offset as string) || 0` from the message-listing
handler. -/
def effOffset (q : Option String) : Int := jsOr (jsParseIntOpt q) 0

/-- JSON response bodies produced by the modelled handlers. -/
inductive Body where
  | msg (text : String)
  | roomOne (r : Room)
  | msgList (l : List MessageWithUser)
  | msgOne (e : MessageWithUser)
  | msgBare (m : Message)
  | userList (l : List User)
deriving Repr, DecidableEq

/-- HTTP status plus JSON body. -/
structure Response where
  status : Nat
  body : Body
deriving Repr, DecidableEq

/-- Log entry for one storage-layer call made by a handler. -/
inductive StorageOp where
  | getRoomById (id : Int)
  | joinRoom (userId : String) (roomId : Int)
  | leaveRoom (userId : String) (roomId : Int)
  | getMessages (roomId : Int) (limit offset : Nat)
  | getLatestMessages (roomId : Int) (since : Option Nat)
  | createMessage (userId : String) (roomId : Int) (content : String)
  | getRoomMembers (roomId : Int)
deriving Repr, DecidableEq

/-- `POST /api/rooms/:roomId/join`: non-numeric id → 400 before any storage
call; unknown room → 404; otherwise `joinRoom` and a success message. -/
def handleJoinRoom (db : DB) (userId roomIdStr : String) (now : Nat) :
    Response × DB × List StorageOp :=
  match jsParseInt roomIdStr with
  | none => (⟨400, Body.msg "Invalid room ID"⟩, db, [])
  | some rid =>
    match getRoomById db rid with
    | none => (⟨404, Body.msg "Room not found"⟩, db, [StorageOp.getRoomById rid])
    | some _ =>
      (⟨200, Body.msg "Joined room successfully"⟩, joinRoom db userId rid now,
       [StorageOp.getRoomById rid, StorageOp.joinRoom userId rid])

/-- `POST /api/rooms/:roomId/leave`: non-numeric id → 400 before any storage
call; otherwise `leaveRoom` and a success message. -/
def handleLeaveRoom (db : DB) (userId roomIdStr : String) :
    Response × DB × List StorageOp :=
  match jsParseInt roomIdStr with
  | none => (⟨400, Body.msg "Invalid room ID"⟩, db, [])
  | some rid =>
    (⟨200, Body.msg "Left room successfully"⟩, leaveRoom db userId rid,
     [StorageOp.leaveRoom userId rid])

/-- `GET /api/rooms/:roomId/messages`: the handler computes
`limit = parseInt(...) || 50`, `offset = parseInt(...) || 0` and the optional
`since` cursor, rejects a non-numeric `roomId` with 400 before any storage
call, and otherwise delegates to `getLatestMessages` (when `since` is
present) or `getMessages`.  The `since` query parameter is modelled as the
already-parsed timestamp. -/
def handleGetMessages (db : DB) (roomIdStr : String)
    (limitQ offsetQ : Option String) (sinceQ : Option Nat) :
    Response × DB × List StorageOp :=
  match jsParseInt roomIdStr with
  | none => (⟨400, Body.msg "Invalid room ID"⟩, db, [])
  | some rid =>
    match sinceQ with
    | some t =>
      (⟨200, Body.msgList (getLatestMessages db rid (some t))⟩, db,
       [StorageOp.getLatestMessages rid (some t)])
    | none =>
      (⟨200, Body.msgList (getMessages db rid (effLimit limitQ).toNat (effOffset offsetQ).toNat)⟩,
       db, [StorageOp.getMessages rid (effLimit limitQ).toNat (effOffset offsetQ).toNat])

/-- `POST /api/rooms/:roomId/messages`: non-numeric id → 400 before any
storage call; otherwise insert the message, re-fetch the newest message of
the room (`getMessages(roomId, 1)`, offset defaulting to 0) and respond 201
with `messageWithUser[0] || message`. -/
def handleSendMessage (db : DB) (userId roomIdStr content : String) (now : Nat) :
    Response × DB × List StorageOp :=
  match jsParseInt roomIdStr with
  | none => (⟨400, Body.msg "Invalid room ID"⟩, db, [])
  | some rid =>
    match createMessage db ⟨content, userId, rid⟩ now with
    | (newMessage, db1) =>
      match getMessages db1 rid 1 0 with
      | [] =>
        (⟨201, Body.msgBare newMessage⟩, db1,
         [StorageOp.createMessage userId rid content, StorageOp.getMessages rid 1 0])
      | e :: _ =>
        (⟨201, Body.msgOne e⟩, db1,
         [StorageOp.createMessage userId rid content, StorageOp.getMessages rid 1 0])

/-- `GET /api/rooms/:roomId/members`: non-numeric id → 400 before any
storage call; otherwise the joined member list. -/
def handleGetMembers (db : DB) (roomIdStr : String) :
    Response × DB × List StorageOp :=
  match jsParseInt roomIdStr with
  | none => (⟨400, Body.msg "Invalid room ID"⟩, db, [])
  | some rid =>
    (⟨200, Body.userList (getRoomMembers db rid)⟩, db, [StorageOp.getRoomMembers rid])

/-! ### Well-formedness of database states

Conditions the schema's primary keys and the spec's referential-integrity
invariant guarantee; they appear as hypotheses of theorems that need them. -/

/-- The `users` primary key: user ids are pairwise distinct. -/
def usersOk (db : DB) : Prop := (db.users.map User.id).Nodup

/-- Referential integrity for messages: every message's author row exists. -/
def msgAuthorsOk (db : DB) : Prop :=
  ∀ m ∈ db.messages, ∃ u ∈ db.users, u.id = m.userId

/-- The serial sequence dominates every existing message id. -/
def msgIdsFresh (db : DB) : Prop :=
  ∀ m ∈ db.messages, m.id < db.nextMessageId

instance (db : DB) : Decidable (usersOk db) := by
  unfold usersOk; infer_instance

instance (db : DB) : Decidable (msgAuthorsOk db) := by
  unfold msgAuthorsOk; infer_instance

instance (db : DB) : Decidable (msgIdsFresh db) := by
  unfold msgIdsFresh; infer_instance

/-! ### Lemmas about the descending sort -/

theorem insD_perm (key : α → Nat) (x : α) (l : List α) :
    List.Perm (insD key x l) (x :: l) := by
  induction l with
  | nil => exact List.Perm.refl _
  | cons y ys ih =>
    by_cases h : key y ≤ key x
    · simp [insD, h]
    · simp only [insD, if_neg h]
      exact (ih.cons y).trans (List.Perm.swap x y ys)

theorem sortD_perm (key : α → Nat) (l : List α) :
    List.Perm (sortD key l) l := by
  induction l with
  | nil => exact List.Perm.refl _
  | cons x xs ih =>
    exact (insD_perm key x (sortD key xs)).trans (ih.cons x)

theorem insD_pairwise {key : α → Nat} {x : α} {l : List α}
    (h : l.Pairwise (fun a b => key b ≤ key a)) :
    (insD key x l).Pairwise (fun a b => key b ≤ key a) := by
  induction l with
  | nil => simp [insD]
  | cons y ys ih =>
    rcases List.pairwise_cons.mp h with ⟨hy, hys⟩
    by_cases hc : key y ≤ key x
    · simp only [insD, if_pos hc]
      refine List.pairwise_cons.mpr ⟨?_, h⟩
      intro b hb
      rcases List.mem_cons.mp hb with hb | hb
      · exact hb ▸ hc
      · exact (hy b hb).trans hc
    · simp only [insD, if_neg hc]
      refine List.pairwise_cons.mpr ⟨?_, ih hys⟩
      intro b hb
      rcases List.mem_cons.mp ((insD_perm key x ys).mem_iff.mp hb) with hb | hb
      · exact hb ▸ Nat.le_of_lt (Nat.lt_of_not_le hc)
      · exact hy b hb

theorem sortD_pairwise (key : α → Nat) (l : List α) :
    (sortD key l).Pairwise (fun a b => key b ≤ key a) := by
  induction l with
  | nil => simp [sortD]
  | cons x xs ih => exact insD_pairwise ih

theorem insD_of_lt {key : α → Nat} {x a : α} {s : List α} (h : key a < key x) :
    insD key a (x :: s) = x :: insD key a s := by
  simp [insD, Nat.not_le.mpr h]

theorem sortD_append_max {key : α → Nat} {l : List α} {x : α}
    (h : ∀ y ∈ l, key y < key x) :
    sortD key (l ++ [x]) = x :: sortD key l := by
  induction l with
  | nil => rfl
  | cons a t ih =>
    have step : sortD key ((a :: t) ++ [x]) = insD key a (sortD key (t ++ [x])) := rfl
    rw [step, ih (fun y hy => h y (List.mem_cons_of_mem a hy)),
        insD_of_lt (h a (List.mem_cons_self a t))]
    rfl

/-! ### The shared shape of the two message queries -/

/-- Joined message/user pairs satisfying a `WHERE` condition on the message
columns. -/
def filteredPairs (db : DB) (cond : Message → Bool) : List (Message × User) :=
  (joinUsers db).filter (fun p => cond p.1)

/-- The joined rows in `ORDER BY created_at DESC` order. -/
def sortedPairs (db : DB) (cond : Message → Bool) : List (Message × User) :=
  sortD (fun p => p.1.createdAt) (filteredPairs db cond)

/-- Generic join-filter-sort-page-reverse pipeline instantiated by
`getMessages` and both branches of `getLatestMessages`. -/
def queryMsgs (db : DB) (cond : Message → Bool) (limit offset : Nat) :
    List MessageWithUser :=
  ((((sortedPairs db cond).drop offset).take limit).map (fun p => mkMWU p.1 p.2)).reverse

theorem getMessages_eq_query (db : DB) (roomId : Int) (limit offset : Nat) :
    getMessages db roomId limit offset =
      queryMsgs db (fun m => m.roomId == roomId) limit offset := rfl

theorem getLatestMessages_none_eq (db : DB) (roomId : Int) :
    getLatestMessages db roomId none =
      queryMsgs db (fun m => m.roomId == roomId) 50 0 := rfl

theorem getLatestMessages_some_eq (db : DB) (roomId : Int) (t : Nat) :
    getLatestMessages db roomId (some t) =
      queryMsgs db (fun m => m.roomId == roomId && decide (t < m.createdAt)) 50 0 := rfl

theorem toMessage_mkMWU (m : Message) (u : User) :
    (mkMWU m u).toMessage = m := rfl

theorem mem_joinUsers {db : DB} {p : Message × User} :
    p ∈ joinUsers db ↔
      p.1 ∈ db.messages ∧ db.users.find? (fun u => u.id == p.1.userId) = some p.2 := by
  obtain ⟨m, u⟩ := p
  constructor
  · intro hp
    rcases List.mem_filterMap.mp hp with ⟨m', hm', hmap⟩
    rcases Option.map_eq_some'.mp hmap with ⟨u', hu', hpair⟩
    cases hpair
    exact ⟨hm', hu'⟩
  · intro ⟨hm, hf⟩
    exact List.mem_filterMap.mpr ⟨m, hm, by rw [hf]; rfl⟩

theorem mem_filteredPairs {db : DB} {cond : Message → Bool} {p : Message × User} :
    p ∈ filteredPairs db cond ↔
      p.1 ∈ db.messages ∧
        db.users.find? (fun u => u.id == p.1.userId) = some p.2 ∧ cond p.1 = true := by
  unfold filteredPairs
  rw [List.mem_filter, mem_joinUsers]
  tauto

theorem sortedPairs_perm (db : DB) (cond : Message → Bool) :
    List.Perm (sortedPairs db cond) (filteredPairs db cond) :=
  sortD_perm _ _

theorem sortedPairs_pairwise (db : DB) (cond : Message → Bool) :
    (sortedPairs db cond).Pairwise
      (fun a b : Message × User => b.1.createdAt ≤ a.1.createdAt) :=
  sortD_pairwise _ _

theorem mem_queryMsgs {db : DB} {cond : Message → Bool} {limit offset : Nat}
    {e : MessageWithUser} (he : e ∈ queryMsgs db cond limit offset) :
    ∃ p ∈ filteredPairs db cond, e = mkMWU p.1 p.2 := by
  rw [queryMsgs, List.mem_reverse] at he
  rcases List.mem_map.mp he with ⟨p, hp, hmk⟩
  have hp' : p ∈ sortedPairs db cond :=
    (List.drop_sublist _ _).subset ((List.take_sublist _ _).subset hp)
  exact ⟨p, (sortedPairs_perm db cond).subset hp', hmk.symm⟩

theorem queryMsgs_length_le (db : DB) (cond : Message → Bool) (limit offset : Nat) :
    (queryMsgs db cond limit offset).length ≤ limit := by
  simp only [queryMsgs, List.length_reverse, List.length_map, List.length_take]
  exact Nat.min_le_left _ _

theorem queryMsgs_complete {db : DB} {cond : Message → Bool} {limit : Nat}
    {p : Message × User} (hp : p ∈ filteredPairs db cond)
    (hlen : (filteredPairs db cond).length ≤ limit) :
    mkMWU p.1 p.2 ∈ queryMsgs db cond limit 0 := by
  have hslen : (sortedPairs db cond).length ≤ limit :=
    (sortedPairs_perm db cond).length_eq ▸ hlen
  have hps : p ∈ sortedPairs db cond := ((sortedPairs_perm db cond).mem_iff).mpr hp
  rw [queryMsgs, List.mem_reverse, List.drop_zero, List.take_of_length_le hslen]
  exact List.mem_map.mpr ⟨p, hps, rfl⟩

theorem queryMsgs_pairwise (db : DB) (cond : Message → Bool) (limit offset : Nat) :
    (queryMsgs db cond limit offset).Pairwise
      (fun a b => a.createdAt ≤ b.createdAt) := by
  have hpaged : (((sortedPairs db cond).drop offset).take limit).Pairwise
      (fun a b : Message × User => b.1.createdAt ≤ a.1.createdAt) :=
    List.Pairwise.sublist
      ((List.take_sublist _ _).trans (List.drop_sublist _ _))
      (sortedPairs_pairwise db cond)
  rw [queryMsgs, List.pairwise_reverse, List.pairwise_map]
  exact hpaged

theorem queryMsgs_newest {db : DB} {cond : Message → Bool} {limit : Nat}
    {e : MessageWithUser} (he : e ∈ queryMsgs db cond limit 0)
    {q : Message × User} (hq : q ∈ filteredPairs db cond)
    (habs : ∀ e' ∈ queryMsgs db cond limit 0, e'.toMessage ≠ q.1) :
    q.1.createdAt ≤ e.createdAt := by
  have hsplit := List.take_append_drop limit (sortedPairs db cond)
  have hsorted := sortedPairs_pairwise db cond
  have hqs : q ∈ sortedPairs db cond := ((sortedPairs_perm db cond).mem_iff).mpr hq
  rw [← hsplit] at hqs hsorted
  rcases List.mem_append.mp hqs with hqt | hqd
  · exfalso
    apply habs (mkMWU q.1 q.2) _ (toMessage_mkMWU q.1 q.2)
    rw [queryMsgs, List.mem_reverse, List.drop_zero]
    exact List.mem_map.mpr ⟨q, hqt, rfl⟩
  · rw [queryMsgs, List.mem_reverse, List.drop_zero] at he
    rcases List.mem_map.mp he with ⟨p, hpt, hmk⟩
    rcases List.pairwise_append.mp hsorted with ⟨-, -, hcross⟩
    have hle := hcross p hpt q hqd
    rw [← hmk]
    exact hle

/-! ### Further helper lemmas -/

theorem filterMap_pairs_fst_sublist {α β : Type _} (g : α → Option β) (l : List α) :
    List.Sublist ((l.filterMap (fun a => (g a).map (fun b => (a, b)))).map Prod.fst) l := by
  induction l with
  | nil => simp
  | cons a t ih =>
    cases hg : g a with
    | none =>
      simp only [List.filterMap_cons, hg, Option.map_none']
      exact ih.cons a
    | some b =>
      simp only [List.filterMap_cons, hg, Option.map_some', List.map_cons]
      exact ih.cons₂ a

theorem filteredPairs_length_le (db : DB) (cond : Message → Bool) :
    (filteredPairs db cond).length ≤ (db.messages.filter cond).length := by
  have h1 : List.Sublist ((joinUsers db).map Prod.fst) db.messages :=
    filterMap_pairs_fst_sublist _ _
  have h2 := (h1.filter cond).length_le
  rw [List.filter_map, List.length_map] at h2
  exact h2

theorem find?_user_eq_of_nodup {l : List User} (h : (l.map User.id).Nodup)
    {u : User} (hu : u ∈ l) {uid : String} (hid : u.id = uid) :
    l.find? (fun v => v.id == uid) = some u := by
  induction l with
  | nil => cases hu
  | cons a t ih =>
    rw [List.map_cons, List.nodup_cons] at h
    rcases List.mem_cons.mp hu with rfl | hut
    · exact List.find?_cons_of_pos t (by simp [hid])
    · have hmem : uid ∈ t.map User.id := hid ▸ List.mem_map.mpr ⟨u, hut, rfl⟩
      have hne : ¬((fun v : User => v.id == uid) a = true) := by
        simp only [beq_iff_eq]
        intro heq
        exact h.1 (heq ▸ hmem)
      rw [List.find?_cons_of_neg t hne]
      exact ih h.2 hut

theorem getMessages_after_create (db : DB) (im : InsertMessage) (now : Nat) (u : User)
    (hfind : db.users.find? (fun v => v.id == im.userId) = some u)
    (hfresh : ∀ m ∈ db.messages, m.roomId = im.roomId → m.createdAt < now) :
    getMessages (createMessage db im now).2 im.roomId 1 0 =
      [mkMWU (createMessage db im now).1 u] := by
  have hju : joinUsers (createMessage db im now).2 =
      joinUsers db ++ [(⟨db.nextMessageId, im.content, im.userId, im.roomId, now⟩, u)] := by
    unfold joinUsers createMessage
    simp [List.filterMap_append, hfind]
  have hfp : filteredPairs (createMessage db im now).2 (fun m => m.roomId == im.roomId) =
      filteredPairs db (fun m => m.roomId == im.roomId) ++
        [(⟨db.nextMessageId, im.content, im.userId, im.roomId, now⟩, u)] := by
    unfold filteredPairs
    rw [hju, List.filter_append]
    simp
  have hsp : sortedPairs (createMessage db im now).2 (fun m => m.roomId == im.roomId) =
      (⟨⟨db.nextMessageId, im.content, im.userId, im.roomId, now⟩, u⟩ : Message × User) ::
        sortD (fun p => p.1.createdAt)
          (filteredPairs db (fun m => m.roomId == im.roomId)) := by
    unfold sortedPairs
    rw [hfp]
    apply sortD_append_max
    intro y hy
    rcases mem_filteredPairs.mp hy with ⟨hm, -, hc⟩
    exact hfresh y.1 hm (by simpa using hc)
  rw [getMessages_eq_query, queryMsgs, hsp]
  simp [mkMWU, createMessage]

/-! ### Concrete database fixtures for witnesses and counterexamples -/

/-- A user row. -/
def alice : User := ⟨"u1", none, none, none, none, none, none⟩

/-- One user, no rooms. -/
def baseDB : DB := ⟨[alice], [], [], [], 1, 1, 1⟩

/-- One user, one room, no messages. -/
def roomDB : DB := ⟨[alice], [⟨1, "general", none, "u1", 1, 1⟩], [], [], 2, 1, 1⟩

/-- One room with two messages carrying distinct creation times. -/
def ascDB : DB :=
  ⟨[alice], [⟨1, "general", none, "u1", 1, 1⟩],
   [⟨1, "hi", "u1", 1, 10⟩, ⟨2, "there", "u1", 1, 11⟩], [], 2, 3, 1⟩

/-- One room with two messages carrying the same creation time. -/
def tieDB : DB :=
  ⟨[alice], [⟨1, "general", none, "u1", 1, 1⟩],
   [⟨1, "hi", "u1", 1, 10⟩, ⟨2, "there", "u1", 1, 10⟩], [], 2, 3, 1⟩

/-- One room whose creator is a member. -/
def memberDB : DB :=
  ⟨[alice], [⟨1, "general", none, "u1", 1, 1⟩], [], [⟨1, "u1", 1, 2⟩], 2, 1, 2⟩

/-! ### C1 — membership pairs unique per (user, room)

The spec asserts the (user, room) pair is unique and a second `joinRoom` is a
silent no-op.  `joinRoom` does call `.onConflictDoNothing()`, but the
`room_members` table in schema.ts declares no unique constraint on
(`user_id`, `room_id`) — only the serial primary key — so no conflict ever
arises and the second insert adds a second row for the same pair.  The
conflict clause in the code only makes sense with such a constraint, so the
schema contradicts the storage layer's own intent: a code bug. -/

/-- C1: calling `joinRoom` twice with the same (user, room) pair leaves TWO
membership rows for the pair, not one — the uniqueness claim fails on the
code because `room_members` lacks a unique constraint on the pair. -/
theorem joinRoom_twice_leaves_two_rows :
    (((joinRoom (joinRoom roomDB "u1" 1 5) "u1" 1 6).roomMembers.filter
        (fun m => m.userId == "u1" && m.roomId == 1)).length) = 2 := by decide

/-! ### C2 — createRoom atomicity -/

/-- C2 (amended): on the success path, immediately after `createRoom` a
membership row for the creator and the new room exists.  (The two inserts are
not wrapped in a transaction, so the no-orphan-on-failure half of the claim
fails; see the counterexample.) -/
theorem createRoom_creator_membership (db : DB) (ir : InsertRoom) (now : Nat) :
    ∃ mem ∈ (createRoom db ir now).2.roomMembers,
      mem.userId = ir.createdBy ∧ mem.roomId = (createRoom db ir now).1.id := by
  refine ⟨⟨db.nextMemberId, ir.createdBy, db.nextRoomId, now⟩, ?_, rfl, rfl⟩
  simp [createRoom, joinRoom]

/-- C2 counterexample: when the membership insert fails after the room insert
succeeded, the run errors but the room row is already committed and no
membership row exists — an orphaned room, contradicting "if either insert
fails the room is considered not created". -/
theorem createRoom_not_atomic_counterexample :
    isErr (createRoomF baseDB ⟨"general", none, "u1"⟩ 7 true false) = true ∧
    (runState (createRoomF baseDB ⟨"general", none, "u1"⟩ 7 true false)).rooms.length = 1 ∧
    (runState (createRoomF baseDB ⟨"general", none, "u1"⟩ 7 true false)).roomMembers.length = 0 := by
  decide

/-! ### C3 — the incremental-fetch ("since") contract -/

/-- C3: `getLatestMessages(roomId, some t)` returns only messages of that
room with creation time strictly greater than `t` (never a message with
`createdAt ≤ t` or from another room), at most 50 rows; every qualifying
message appears when at most 50 qualify; and when more qualify, every
returned message is at least as new as every qualifying message left out
(the 50 newest are kept).  Referential integrity of message authors is
assumed, as the inner join to `users` drops authorless rows. -/
theorem getLatestMessages_since_spec (db : DB) (roomId : Int) (t : Nat)
    (hri : msgAuthorsOk db) :
    (∀ e ∈ getLatestMessages db roomId (some t),
        e.toMessage ∈ db.messages ∧ e.roomId = roomId ∧ t < e.createdAt) ∧
    (getLatestMessages db roomId (some t)).length ≤ 50 ∧
    ((db.messages.filter
        (fun m => m.roomId == roomId && decide (t < m.createdAt))).length ≤ 50 →
      ∀ m ∈ db.messages, m.roomId = roomId → t < m.createdAt →
        ∃ e ∈ getLatestMessages db roomId (some t), e.toMessage = m) ∧
    (∀ e ∈ getLatestMessages db roomId (some t),
      ∀ m ∈ db.messages, m.roomId = roomId → t < m.createdAt →
        (∀ e' ∈ getLatestMessages db roomId (some t), e'.toMessage ≠ m) →
        m.createdAt ≤ e.createdAt) := by
  have hfind : ∀ m ∈ db.messages, ∃ u,
      db.users.find? (fun v => v.id == m.userId) = some u := by
    intro m hm
    rcases hri m hm with ⟨u, hu, hid⟩
    have : (db.users.find? (fun v => v.id == m.userId)).isSome :=
      List.find?_isSome.mpr ⟨u, hu, by simp [hid]⟩
    exact Option.isSome_iff_exists.mp this
  refine ⟨?_, ?_, ?_, ?_⟩
  · intro e he
    rw [getLatestMessages_some_eq] at he
    rcases mem_queryMsgs he with ⟨p, hp, rfl⟩
    rcases mem_filteredPairs.mp hp with ⟨hm, -, hc⟩
    simp only [Bool.and_eq_true, beq_iff_eq, decide_eq_true_eq] at hc
    exact ⟨hm, hc.1, hc.2⟩
  · rw [getLatestMessages_some_eq]
    exact queryMsgs_length_le ..
  · intro hcap m hm hroom ht
    rcases hfind m hm with ⟨u, hfu⟩
    have hcm : (fun mm : Message => mm.roomId == roomId && decide (t < mm.createdAt)) m
        = true := by simp [hroom, ht]
    have hp : (m, u) ∈ filteredPairs db
        (fun mm => mm.roomId == roomId && decide (t < mm.createdAt)) :=
      mem_filteredPairs.mpr ⟨hm, hfu, hcm⟩
    have hlen := (filteredPairs_length_le db
      (fun mm => mm.roomId == roomId && decide (t < mm.createdAt))).trans hcap
    refine ⟨mkMWU m u, ?_, toMessage_mkMWU m u⟩
    rw [getLatestMessages_some_eq]
    exact queryMsgs_complete hp hlen
  · intro e he m hm hroom ht habs
    rcases hfind m hm with ⟨u, hfu⟩
    have hcm : (fun mm : Message => mm.roomId == roomId && decide (t < mm.createdAt)) m
        = true := by simp [hroom, ht]
    have hq : (m, u) ∈ filteredPairs db
        (fun mm => mm.roomId == roomId && decide (t < mm.createdAt)) :=
      mem_filteredPairs.mpr ⟨hm, hfu, hcm⟩
    rw [getLatestMessages_some_eq] at he habs
    exact queryMsgs_newest he hq habs

/-- C3 witness: the theorem applied to a concrete store with messages at
times 10 and 11 and the cursor at 10. -/
theorem getLatestMessages_since_spec_witness :
    msgAuthorsOk ascDB ∧
    ((∀ e ∈ getLatestMessages ascDB 1 (some 10),
        e.toMessage ∈ ascDB.messages ∧ e.roomId = 1 ∧ 10 < e.createdAt) ∧
     (getLatestMessages ascDB 1 (some 10)).length ≤ 50 ∧
     ((ascDB.messages.filter
         (fun m => m.roomId == 1 && decide (10 < m.createdAt))).length ≤ 50 →
       ∀ m ∈ ascDB.messages, m.roomId = 1 → 10 < m.createdAt →
         ∃ e ∈ getLatestMessages ascDB 1 (some 10), e.toMessage = m) ∧
     (∀ e ∈ getLatestMessages ascDB 1 (some 10),
       ∀ m ∈ ascDB.messages, m.roomId = 1 → 10 < m.createdAt →
         (∀ e' ∈ getLatestMessages ascDB 1 (some 10), e'.toMessage ≠ m) →
         m.createdAt ≤ e.createdAt)) :=
  ⟨by decide, getLatestMessages_since_spec ascDB 1 10 (by decide)⟩

/-! ### C4 — display ordering and tie-breaking -/

/-- C4 counterexample: two messages of the same room share `createdAt = 10`
but are returned with ids in REVERSE insertion order — the query orders only
by `created_at` (no secondary id key), and the final `.reverse()` turns the
stable descending sort into reverse insertion order among equal timestamps,
so "ties broken by insertion (id) order" fails. -/
theorem messages_tie_order_counterexample :
    (getMessages tieDB 1 50 0).map (fun e => (e.id, e.createdAt)) = [(2, 10), (1, 10)] := by
  decide

/-- C4 (amended): the lists returned by `getMessages` and
`getLatestMessages` are sorted ascending by creation timestamp
(`result[i].createdAt ≤ result[j].createdAt` for `i < j`); equal-timestamp
ties are NOT broken by id order. -/
theorem messages_sorted_ascending (db : DB) (roomId : Int) (limit offset : Nat)
    (since : Option Nat) :
    ((getMessages db roomId limit offset).Pairwise
        (fun a b => a.createdAt ≤ b.createdAt)) ∧
    ((getLatestMessages db roomId since).Pairwise
        (fun a b => a.createdAt ≤ b.createdAt)) := by
  constructor
  · rw [getMessages_eq_query]
    exact queryMsgs_pairwise ..
  · cases since with
    | none =>
      rw [getLatestMessages_none_eq]
      exact queryMsgs_pairwise ..
    | some t =>
      rw [getLatestMessages_some_eq]
      exact queryMsgs_pairwise ..

/-! ### C5 — omitted `since` matches default paging -/

/-- C5: with `since` omitted, `getLatestMessages(roomId)` coincides with
`getMessages(roomId)` under the default paging (limit 50, offset 0), for
every store and room. -/
theorem getLatestMessages_none_eq_getMessages (db : DB) (roomId : Int) :
    getLatestMessages db roomId none = getMessages db roomId 50 0 := rfl

/-! ### C6 — room listing with creator and member count -/

/-- C6: `getRooms` returns one row per room; each row copies the room's
columns, carries `memberCount` equal to the number of membership rows of
that room, equals the unique creator row when one exists, and falls back to
the empty-profile placeholder when the creator row is missing (the operation
is total, so it never fails). -/
theorem getRooms_spec (db : DB) (hu : usersOk db) :
    (getRooms db).length = db.rooms.length ∧
    ∀ r ∈ db.rooms, ∃ d ∈ getRooms db,
      d.id = r.id ∧ d.name = r.name ∧ d.description = r.description ∧
      d.createdBy = r.createdBy ∧
      d.memberCount = (db.roomMembers.filter (fun m => m.roomId == r.id)).length ∧
      (∀ u ∈ db.users, u.id = r.createdBy → d.creator = u) ∧
      ((∀ u ∈ db.users, u.id ≠ r.createdBy) → d.creator = placeholderUser) := by
  refine ⟨by simp [getRooms], ?_⟩
  intro r hr
  refine ⟨_, List.mem_map.mpr ⟨r, hr, rfl⟩, rfl, rfl, rfl, rfl, rfl, ?_, ?_⟩
  · intro u humem hid
    have hf : db.users.find? (fun v => v.id == r.createdBy) = some u :=
      find?_user_eq_of_nodup hu humem hid
    simp [hf]
  · intro hnone
    have hf : db.users.find? (fun v => v.id == r.createdBy) = none :=
      List.find?_eq_none.mpr (fun u humem => by simpa using hnone u humem)
    simp [hf]

/-- C6 witness: a store where room 1 has an existing creator and one
membership row. -/
theorem getRooms_spec_witness :
    usersOk memberDB ∧
    ((getRooms memberDB).length = memberDB.rooms.length ∧
     ∀ r ∈ memberDB.rooms, ∃ d ∈ getRooms memberDB,
       d.id = r.id ∧ d.name = r.name ∧ d.description = r.description ∧
       d.createdBy = r.createdBy ∧
       d.memberCount = (memberDB.roomMembers.filter (fun m => m.roomId == r.id)).length ∧
       (∀ u ∈ memberDB.users, u.id = r.createdBy → d.creator = u) ∧
       ((∀ u ∈ memberDB.users, u.id ≠ r.createdBy) → d.creator = placeholderUser)) :=
  ⟨by decide, getRooms_spec memberDB (by decide)⟩

/-! ### C7 — non-numeric roomId rejected before any storage operation -/

/-- C7: each of the five routes with a `:roomId` path parameter (join,
leave, list messages, send message, list members) answers 400 with
"Invalid room ID", leaves the store unchanged and performs no storage
operation whenever `parseInt` yields `NaN` on the parameter. -/
theorem routes_reject_nonnumeric_roomId (db : DB) (userId content s : String)
    (now : Nat) (limitQ offsetQ : Option String) (sinceQ : Option Nat)
    (h : jsParseInt s = none) :
    handleJoinRoom db userId s now = (⟨400, Body.msg "Invalid room ID"⟩, db, []) ∧
    handleLeaveRoom db userId s = (⟨400, Body.msg "Invalid room ID"⟩, db, []) ∧
    handleGetMessages db s limitQ offsetQ sinceQ =
      (⟨400, Body.msg "Invalid room ID"⟩, db, []) ∧
    handleSendMessage db userId s content now =
      (⟨400, Body.msg "Invalid room ID"⟩, db, []) ∧
    handleGetMembers db s = (⟨400, Body.msg "Invalid room ID"⟩, db, []) := by
  refine ⟨?_, ?_, ?_, ?_, ?_⟩ <;>
    simp [handleJoinRoom, handleLeaveRoom, handleGetMessages, handleSendMessage,
      handleGetMembers, h]

/-- C7 witness: the five routes at the concrete non-numeric parameter
"abc". -/
theorem routes_reject_nonnumeric_roomId_witness :
    handleJoinRoom baseDB "u1" "abc" 3 = (⟨400, Body.msg "Invalid room ID"⟩, baseDB, []) ∧
    handleLeaveRoom baseDB "u1" "abc" = (⟨400, Body.msg "Invalid room ID"⟩, baseDB, []) ∧
    handleGetMessages baseDB "abc" none none none =
      (⟨400, Body.msg "Invalid room ID"⟩, baseDB, []) ∧
    handleSendMessage baseDB "u1" "abc" "hello" 3 =
      (⟨400, Body.msg "Invalid room ID"⟩, baseDB, []) ∧
    handleGetMembers baseDB "abc" = (⟨400, Body.msg "Invalid room ID"⟩, baseDB, []) :=
  routes_reject_nonnumeric_roomId baseDB "u1" "hello" "abc" 3 none none none (by decide)

/-! ### C8 — created content round-trips verbatim -/

/-- C8: when a message is created with content `C` and a later
`getMessages` call for its room returns an entry with the new row's id, that
entry carries `C` character-for-character, the creation time, and the joined
author profile (a user row from the store whose id is the author's id).
`msgIdsFresh` is the serial-sequence invariant identifying the new row. -/
theorem createMessage_roundtrip (db : DB) (im : InsertMessage) (now : Nat)
    (limit offset : Nat) (hfresh : msgIdsFresh db) (e : MessageWithUser)
    (he : e ∈ getMessages (createMessage db im now).2 im.roomId limit offset)
    (hid : e.id = db.nextMessageId) :
    e.content = im.content ∧ e.userId = im.userId ∧ e.createdAt = now ∧
    e.user ∈ db.users ∧ e.user.id = im.userId := by
  rw [getMessages_eq_query] at he
  rcases mem_queryMsgs he with ⟨p, hp, rfl⟩
  rcases mem_filteredPairs.mp hp with ⟨hm, hf, -⟩
  have hmm : p.1 ∈ db.messages ++
      [⟨db.nextMessageId, im.content, im.userId, im.roomId, now⟩] := by
    simpa [createMessage] using hm
  have hpid : p.1.id = db.nextMessageId := hid
  rcases List.mem_append.mp hmm with hold | hnew
  · exact absurd (hpid ▸ hfresh p.1 hold) (lt_irrefl _)
  · have hp1 : p.1 = ⟨db.nextMessageId, im.content, im.userId, im.roomId, now⟩ :=
      List.mem_singleton.mp hnew
    have huid : p.2.id = p.1.userId := by simpa using List.find?_some hf
    have humem : p.2 ∈ db.users := by
      have := List.mem_of_find?_eq_some hf
      simpa [createMessage] using this
    exact ⟨by simp [mkMWU, hp1], by simp [mkMWU, hp1], by simp [mkMWU, hp1], humem,
      by simp [mkMWU, huid, hp1]⟩

/-- C8 witness: the theorem applied to a store with one pre-existing
message, creating "hello" in room 1. -/
theorem createMessage_roundtrip_witness :
    msgIdsFresh ascDB ∧
    mkMWU ⟨3, "hello", "u1", 1, 20⟩ alice ∈
      getMessages (createMessage ascDB ⟨"hello", "u1", 1⟩ 20).2 1 50 0 ∧
    (mkMWU ⟨3, "hello", "u1", 1, 20⟩ alice).id = ascDB.nextMessageId ∧
    ((mkMWU ⟨3, "hello", "u1", 1, 20⟩ alice).content = "hello" ∧
     (mkMWU ⟨3, "hello", "u1", 1, 20⟩ alice).userId = "u1" ∧
     (mkMWU ⟨3, "hello", "u1", 1, 20⟩ alice).createdAt = 20 ∧
     (mkMWU ⟨3, "hello", "u1", 1, 20⟩ alice).user ∈ ascDB.users ∧
     (mkMWU ⟨3, "hello", "u1", 1, 20⟩ alice).user.id = "u1") :=
  ⟨by decide, by decide, by decide,
   createMessage_roundtrip ascDB ⟨"hello", "u1", 1⟩ 20 50 0 (by decide)
     (mkMWU ⟨3, "hello", "u1", 1, 20⟩ alice) (by decide) (by decide)⟩

/-! ### C9 — limit/offset defaulting in the message-listing route -/

/-- C9: in the message-listing route, a `limit` query parameter that is
absent, non-numeric, or parses to 0 yields the default 50, and an `offset`
that is absent, non-numeric, or parses to 0 yields 0 (JS `|| 50` / `|| 0`
treat both `NaN` and `0` as falsy); such a request therefore answers with
`getMessages` under default paging and returns at most 50 messages rather
than none. -/
theorem messages_route_defaults (db : DB) (s : String) (rid : Int)
    (limitQ offsetQ : Option String)
    (hrid : jsParseInt s = some rid)
    (hlim : jsParseIntOpt limitQ = none ∨ jsParseIntOpt limitQ = some 0)
    (hoff : jsParseIntOpt offsetQ = none ∨ jsParseIntOpt offsetQ = some 0) :
    effLimit limitQ = 50 ∧ effOffset offsetQ = 0 ∧
    handleGetMessages db s limitQ offsetQ none =
      (⟨200, Body.msgList (getMessages db rid 50 0)⟩, db,
       [StorageOp.getMessages rid 50 0]) ∧
    (getMessages db rid 50 0).length ≤ 50 := by
  have h1 : effLimit limitQ = 50 := by
    rcases hlim with h | h <;> simp [effLimit, jsOr, h]
  have h2 : effOffset offsetQ = 0 := by
    rcases hoff with h | h <;> simp [effOffset, jsOr, h]
  refine ⟨h1, h2, ?_, ?_⟩
  · simp [handleGetMessages, hrid, h1, h2]
  · rw [getMessages_eq_query]
    exact queryMsgs_length_le ..

/-- C9 witness: `limit=0` and a non-numeric `offset` on a store holding two
messages. -/
theorem messages_route_defaults_witness :
    jsParseInt "1" = some 1 ∧
    (effLimit (some "0") = 50 ∧ effOffset (some "xyz") = 0 ∧
     handleGetMessages ascDB "1" (some "0") (some "xyz") none =
       (⟨200, Body.msgList (getMessages ascDB 1 50 0)⟩, ascDB,
        [StorageOp.getMessages 1 50 0]) ∧
     (getMessages ascDB 1 50 0).length ≤ 50) :=
  ⟨by decide,
   messages_route_defaults ascDB "1" 1 (some "0") (some "xyz") (by decide)
     (Or.inr (by decide)) (Or.inl (by decide))⟩

/-! ### C10 — the send-message route re-fetches and returns the new message -/

/-- C10: the send-message route inserts the message and responds with the
head of `getMessages(roomId, 1)` joined to its author (falling back to the
bare row only when that re-fetch is empty); in a sequential execution — the
new row's server-assigned creation time exceeding every earlier timestamp of
the room, and the author present in `users` — the 201 response body is
exactly the row `createMessage` returned, with the author profile attached. -/
theorem send_message_returns_created (db : DB) (userId s content : String)
    (rid : Int) (now : Nat) (u : User)
    (hrid : jsParseInt s = some rid)
    (hfind : db.users.find? (fun v => v.id == userId) = some u)
    (hfresh : ∀ m ∈ db.messages, m.roomId = rid → m.createdAt < now) :
    (handleSendMessage db userId s content now).1 =
      ⟨201, Body.msgOne (mkMWU (createMessage db ⟨content, userId, rid⟩ now).1 u)⟩ := by
  have hlist := getMessages_after_create db ⟨content, userId, rid⟩ now u hfind hfresh
  simp only [createMessage] at hlist
  simp only [handleSendMessage, hrid, createMessage]
  rw [hlist]

/-- C10 witness: sending "yo" to room 1 of a store already holding two
older messages. -/
theorem send_message_returns_created_witness :
    jsParseInt "1" = some 1 ∧
    ascDB.users.find? (fun v => v.id == "u1") = some alice ∧
    (∀ m ∈ ascDB.messages, m.roomId = 1 → m.createdAt < 20) ∧
    (handleSendMessage ascDB "u1" "1" "yo" 20).1 =
      ⟨201, Body.msgOne (mkMWU (createMessage ascDB ⟨"yo", "u1", 1⟩ 20).1 alice)⟩ :=
  ⟨by decide, by decide, by decide,
   send_message_returns_created ascDB "u1" "1" "yo" 1 20 alice (by decide) (by decide)
     (by decide)⟩
